import Mathlib

set_option autoImplicit false

/-!
Shallow embedding of the session/tunnel lifecycle orchestration of
`server/session_service.go` (package `chserver`).  The service's external
collaborators — the port allocator (`ports.PortDistributor`), the session
entity (`csr.ClientSession.StartTunnel`) and the session repository
(`csr.ClientSessionRepository`) — are outside the given sources; they are
modelled from the spec at their interface boundary, with the outcome of each
external call injected through oracle streams carried in the state, and every
external call recorded in an event trace so that call-ordering properties can
be stated.
-/

namespace NeoRport

/-- A remote forward request (`chshare.Remote`): remote (client-side) and
local (server-side) host/port, all strings as in the Go struct. -/
structure Remote where
  remoteHost : String
  remotePort : String
  localHost : String
  localPort : String
deriving DecidableEq, Repr

/-- Modelled from the spec: `chshare.Remote.IsLocalSpecified` (the `chshare`
package is not part of the given sources).  Per spec §4.2 a remote specifies
its local endpoint exactly when the caller supplied a local port. -/
def Remote.isLocalSpecified (r : Remote) : Bool :=
  r.localPort ≠ ""

/-- Access-control list attached to a tunnel (`csr.TunnelACL`); an empty list
of allowed ranges is the default and means unrestricted (spec §3). -/
structure TunnelACL where
  allowedRanges : List String := []
deriving DecidableEq, Repr

/-- A tunnel (`csr.Tunnel`): one forwarding rule — the resolved remote/local
addressing plus the attached ACL. -/
structure Tunnel where
  remote : Remote
  acl : TunnelACL
deriving DecidableEq, Repr

/-- The transport handle (`ssh.Conn`): only the observed remote address is
used by the service. -/
structure Conn where
  remoteAddr : String
deriving DecidableEq, Repr

/-- `csr.ClientSession`: identity, declared metadata, the transport handle
(optional: absent means no live handle), the tunnel collection, opaque
context/user/logger handles (modelled as ids), and the optional disconnection
timestamp (time modelled as `Nat`). -/
structure ClientSession where
  id : String
  name : String
  tags : List String
  os : String
  hostname : String
  version : String
  ipv4 : List String
  ipv6 : List String
  address : String
  tunnels : List Tunnel
  connection : Option Conn
  context : Nat
  user : Nat
  logger : Nat
  disconnected : Option Nat
deriving DecidableEq, Repr

/-- `chshare.ConnectionRequest`: the client's declared metadata and the list
of requested remote forwards. -/
structure ConnectionRequest where
  name : String
  tags : List String
  os : String
  hostname : String
  version : String
  ipv4 : List String
  ipv6 : List String
  remotes : List Remote
deriving DecidableEq, Repr

/-- One external call made by the service, recorded in order. -/
inductive Event where
  | refresh
  | getPort
  | startTunnelEv (r : Remote)
  | saveEv (id : String)
  | deleteEv (id : String)
deriving DecidableEq, Repr

/-- Modelled from the spec (§4.4, §6): the session repository
(`csr.ClientSessionRepository`) as a keyed store, together with the retention
policy flag `KeepLostClients` (a nullable duration in Go, `Option Nat` here)
and an injectable backend failure for the read accessors. -/
structure Repo where
  sessions : List (String × ClientSession)
  keepLostClients : Option Nat
  backendErr : Option String
deriving DecidableEq, Repr

/-- Upsert keyed by session id (spec §4.4: `Save` overwrites any prior record
with the same identifier). -/
def repoUpsert (sessions : List (String × ClientSession)) (sess : ClientSession) :
    List (String × ClientSession) :=
  if sessions.any (fun p => p.1 = sess.id) then
    sessions.map (fun p => if p.1 = sess.id then (sess.id, sess) else p)
  else
    sessions ++ [(sess.id, sess)]

/-- Removal keyed by session id (spec §4.4: `Delete` removes the record). -/
def repoRemove (sessions : List (String × ClientSession)) (id : String) :
    List (String × ClientSession) :=
  sessions.filter (fun p => p.1 ≠ id)

/-- The service state: the oracle streams deciding the outcome of successive
external calls (the collaborators' internals are outside the given sources),
the repository, and the trace of external calls made so far. -/
structure St where
  refreshResults : List (Option String)
  randomPorts : List (Except String Nat)
  startTunnelResults : List (Option String)
  saveResults : List (Option String)
  deleteResults : List (Option String)
  repo : Repo
  trace : List Event
deriving Repr

/-- Modelled from the spec (§4.1): `PortDistributor.Refresh`.  The outcome of
each call comes from the `refreshResults` oracle stream (default: success);
the call is recorded in the trace. -/
def refreshOp (st : St) : Option String × St :=
  (st.refreshResults.head?.getD none,
   { st with refreshResults := st.refreshResults.tail,
             trace := st.trace ++ [Event.refresh] })

/-- Modelled from the spec (§4.1): `PortDistributor.GetRandomPort`.  Each call
consumes the head of the `randomPorts` oracle stream (an empty stream means
pool exhaustion); the call is recorded in the trace. -/
def getRandomPortOp (st : St) : Except String Nat × St :=
  (st.randomPorts.head?.getD (Except.error "pool exhausted"),
   { st with randomPorts := st.randomPorts.tail,
             trace := st.trace ++ [Event.getPort] })

/-- Modelled from the spec (§4.3): `ClientSession.StartTunnel` constructs the
tunnel for the resolved remote and the given ACL, appends it to the session's
tunnel collection and returns it; validation failures (`InvalidTunnelSpec`,
`DuplicateBinding`) are injected via the `startTunnelResults` oracle stream
(default: success).  On failure the session is unchanged. -/
def sessionStartTunnel (st : St) (session : ClientSession) (r : Remote) (acl : TunnelACL) :
    Except String Tunnel × ClientSession × St :=
  let st' : St := { st with startTunnelResults := st.startTunnelResults.tail,
                            trace := st.trace ++ [Event.startTunnelEv r] }
  match st.startTunnelResults.head?.getD none with
  | some e => (Except.error e, session, st')
  | none =>
    let t : Tunnel := { remote := r, acl := acl }
    (Except.ok t, { session with tunnels := session.tunnels ++ [t] }, st')

/-- Modelled from the spec (§4.4): `Repository.Save`, an upsert; a storage
failure (injected via `saveResults`) leaves the store unchanged and is
returned to the caller unchanged. -/
def repoSaveOp (st : St) (sess : ClientSession) : Option String × St :=
  let st' : St := { st with saveResults := st.saveResults.tail,
                            trace := st.trace ++ [Event.saveEv sess.id] }
  match st.saveResults.head?.getD none with
  | some e => (some e, st')
  | none =>
    (none, { st' with repo := { st'.repo with sessions := repoUpsert st'.repo.sessions sess } })

/-- Modelled from the spec (§4.4): `Repository.Delete`, keyed removal; a
storage failure (injected via `deleteResults`) leaves the store unchanged. -/
def repoDeleteOp (st : St) (sess : ClientSession) : Option String × St :=
  let st' : St := { st with deleteResults := st.deleteResults.tail,
                            trace := st.trace ++ [Event.deleteEv sess.id] }
  match st.deleteResults.head?.getD none with
  | some e => (some e, st')
  | none =>
    (none, { st' with repo := { st'.repo with sessions := repoRemove st'.repo.sessions sess.id } })

/-- Modelled from the spec (§4.4): `Repository.Count` counts all stored
records; a backend failure is surfaced as-is. -/
def Repo.count (repo : Repo) : Except String Nat :=
  match repo.backendErr with
  | some e => Except.error e
  | none => Except.ok repo.sessions.length

/-- Modelled from the spec (§4.4): `Repository.GetAll` lists all stored
records regardless of connection state. -/
def Repo.getAll (repo : Repo) : Except String (List ClientSession) :=
  match repo.backendErr with
  | some e => Except.error e
  | none => Except.ok (repo.sessions.map (fun p => p.2))

/-- Modelled from the spec (§4.4): `Repository.GetActiveByID` — `NotFound`
when the record is absent or its disconnection timestamp is set. -/
def Repo.getActiveByID (repo : Repo) (id : String) : Except String ClientSession :=
  match repo.backendErr with
  | some e => Except.error e
  | none =>
    match (repo.sessions.filter (fun p => p.1 = id)).head? with
    | some p => if p.2.disconnected = none then Except.ok p.2 else Except.error "not found"
    | none => Except.error "not found"

/-- `SessionService.Count`: `return s.repo.Count()`. -/
def serviceCount (st : St) : Except String Nat :=
  st.repo.count

/-- `SessionService.GetActiveByID`: `return s.repo.GetActiveByID(id)`. -/
def serviceGetActiveByID (st : St) (id : String) : Except String ClientSession :=
  st.repo.getActiveByID id

/-- `SessionService.GetAll`: `return s.repo.GetAll()`. -/
def serviceGetAll (st : St) : Except String (List ClientSession) :=
  st.repo.getAll

/-- The local-endpoint resolution step of the loop body of
`StartSessionTunnels`: when the remote does not specify its local endpoint,
ask the allocator for a port, write it back (decimal string, via
`strconv.Itoa`) together with local host `"0.0.0.0"`; otherwise leave the
remote untouched and consult no allocator. -/
def resolveLocal (st : St) (r : Remote) : Except String Remote × St :=
  if r.isLocalSpecified then (Except.ok r, st)
  else
    match getRandomPortOp st with
    | (Except.ok p, st') =>
      (Except.ok { r with localPort := toString p, localHost := "0.0.0.0" }, st')
    | (Except.error e, st') => (Except.error e, st')

/-- One iteration of the `for _, remote := range remotes` loop of
`StartSessionTunnels`: resolve the local endpoint (possibly mutating the
remote), then delegate to the session's `StartTunnel`.  Returns the outcome,
the final value of the caller-supplied remote (in Go it is mutated through a
pointer), the session and the state. -/
def stepRemote (st : St) (session : ClientSession) (acl : TunnelACL) (r : Remote) :
    Except String Tunnel × Remote × ClientSession × St :=
  match resolveLocal st r with
  | (Except.error e, st') => (Except.error e, r, session, st')
  | (Except.ok r', st') =>
    match sessionStartTunnel st' session r' acl with
    | (Except.error e, session', st'') => (Except.error e, r', session', st'')
    | (Except.ok t, session', st'') => (Except.ok t, r', session', st'')

/-- The `for _, remote := range remotes` loop of `StartSessionTunnels`:
iterate `stepRemote` over the remotes in order, collecting the created
tunnels; the first failure aborts with that error (the Go function returns
`nil, err`).  Besides the result it returns the final values of the
caller-supplied remotes, the final session and the final state. -/
def startTunnelsLoop : St → ClientSession → TunnelACL → List Remote →
    Except String (List Tunnel) × List Remote × ClientSession × St
  | st, session, _, [] => (Except.ok [], [], session, st)
  | st, session, acl, r :: rs =>
    match stepRemote st session acl r with
    | (Except.error e, r', session', st') => (Except.error e, r' :: rs, session', st')
    | (Except.ok t, r', session', st') =>
      let out := startTunnelsLoop st' session' acl rs
      ((match out.1 with
        | Except.ok ts => Except.ok (t :: ts)
        | Except.error e => Except.error e),
       r' :: out.2.1, out.2.2.1, out.2.2.2)

/-- `SessionService.StartSessionTunnels`: refresh the allocator once, then
run the per-remote loop. -/
def startSessionTunnels (st : St) (session : ClientSession) (remotes : List Remote)
    (acl : TunnelACL) :
    Except String (List Tunnel) × List Remote × ClientSession × St :=
  match refreshOp st with
  | (some e, st') => (Except.error e, remotes, session, st')
  | (none, st') => startTunnelsLoop st' session acl remotes

/-- The session literal built at the top of `StartClientSession`. -/
def mkClientSession (ctx : Nat) (sid : String) (sshConn : Conn)
    (req : ConnectionRequest) (user : Nat) (clog : Nat) : ClientSession :=
  { id := sid
    name := req.name
    tags := req.tags
    os := req.os
    hostname := req.hostname
    version := req.version
    ipv4 := req.ipv4
    ipv6 := req.ipv6
    address := sshConn.remoteAddr
    tunnels := []
    connection := some sshConn
    context := ctx
    user := user
    logger := clog
    disconnected := none }

/-- `SessionService.StartClientSession`: build the session, start the
requested tunnels with the default ACL (discarding the returned tunnel list),
then persist the session; any failure is returned as-is and skips the rest. -/
def startClientSession (st : St) (ctx : Nat) (sid : String) (sshConn : Conn)
    (req : ConnectionRequest) (user : Nat) (clog : Nat) :
    Except String ClientSession × St :=
  let session := mkClientSession ctx sid sshConn req user clog
  match startSessionTunnels st session req.remotes {} with
  | (Except.error e, _, _, st') => (Except.error e, st')
  | (Except.ok _, _, session', st') =>
    match repoSaveOp st' session' with
    | (some e, st'') => (Except.error e, st'')
    | (none, st'') => (Except.ok session', st'')

/-- `SessionService.Terminate`: when `KeepLostClients` is nil, delete the
session from the repository; otherwise stamp the disconnection timestamp with
the current UTC time (the clock is an external input, passed as `now`) and
re-save.  Returns the repository error, the session as left by the call, and
the final state. -/
def terminate (st : St) (now : Nat) (session : ClientSession) :
    Option String × ClientSession × St :=
  if st.repo.keepLostClients = none then
    let out := repoDeleteOp st session
    (out.1, session, out.2)
  else
    let session' := { session with disconnected := some now }
    let out := repoSaveOp st session'
    (out.1, session', out.2)

/-- An event the tunnel-start loop may emit: a port allocation or a delegated
tunnel start — never a refresh and never a repository operation. -/
def isLoopEvent : Event → Prop
  | Event.getPort => True
  | Event.startTunnelEv _ => True
  | _ => False

/-- A session with its tunnel collection erased: equality under
`sessionSansTunnels` says two sessions agree on every field other than
`tunnels`. -/
def sessionSansTunnels (c : ClientSession) : ClientSession :=
  { c with tunnels := [] }

/-- Number of remotes in a list that do not specify their local endpoint
(each of these consumes exactly one allocator call). -/
def countNoLocal (rs : List Remote) : Nat :=
  (rs.filter (fun r => !r.isLocalSpecified)).length

/-! Concrete fixtures used by the witness theorems. -/

def rSpec : Remote :=
  { remoteHost := "10.0.0.5", remotePort := "22", localHost := "127.0.0.1", localPort := "2222" }

def rAuto : Remote :=
  { remoteHost := "10.0.0.6", remotePort := "80", localHost := "", localPort := "" }

def conn0 : Conn := { remoteAddr := "203.0.113.9:51000" }

def session0 : ClientSession :=
  { id := "sid-1", name := "client-1", tags := ["t"], os := "linux", hostname := "h1",
    version := "0.1.0", ipv4 := ["192.168.0.2"], ipv6 := [], address := "203.0.113.9:51000",
    tunnels := [], connection := some conn0, context := 1, user := 7, logger := 3,
    disconnected := none }

def repo0 : Repo := { sessions := [], keepLostClients := none, backendErr := none }

def st0 : St :=
  { refreshResults := [], randomPorts := [Except.ok 3000, Except.ok 3001],
    startTunnelResults := [], saveResults := [], deleteResults := [],
    repo := repo0, trace := [] }

def req0 : ConnectionRequest :=
  { name := "client-1", tags := ["t"], os := "linux", hostname := "h1", version := "0.1.0",
    ipv4 := ["192.168.0.2"], ipv6 := [], remotes := [rSpec, rAuto] }

def stRefreshFail : St := { st0 with refreshResults := [some "occupancy source down"] }


def stTunnelFail : St := { st0 with startTunnelResults := [some "bind error"] }


def aclDefault : TunnelACL := TunnelACL.mk []

def rAutoRes : Remote := { rAuto with localPort := toString 3000, localHost := "0.0.0.0" }

def tsSuccess : List Tunnel := [Tunnel.mk rSpec aclDefault, Tunnel.mk rAutoRes aclDefault]

def remSuccess : List Remote := [rSpec, rAutoRes]

def sessSuccess : ClientSession := { session0 with tunnels := tsSuccess }

def stSuccess : St :=
  { st0 with randomPorts := [Except.ok 3001],
             trace := [Event.refresh, Event.startTunnelEv rSpec, Event.getPort,
                       Event.startTunnelEv rAutoRes] }


theorem countNoLocal_nil : countNoLocal [] = 0 := rfl

theorem countNoLocal_cons (r : Remote) (rs : List Remote) :
    countNoLocal (r :: rs) =
      if r.isLocalSpecified then countNoLocal rs else countNoLocal rs + 1 := by
  cases h : r.isLocalSpecified <;> simp [countNoLocal, h]

/-- Everything one loop iteration can do, in one lemma: the repository and
the refresh/save/delete oracle streams are untouched, the appended events are
loop events (port allocation / tunnel start), the session changes only in its
tunnel collection — unchanged on failure, extended by exactly the created
tunnel on success — and the local-endpoint resolution behaves as the source
prescribes on each side of `IsLocalSpecified`. -/
theorem stepRemote_spec (st : St) (session : ClientSession) (acl : TunnelACL) (r : Remote)
    (tres : Except String Tunnel) (r' : Remote) (session' : ClientSession) (st' : St)
    (h : stepRemote st session acl r = (tres, r', session', st')) :
    st'.repo = st.repo ∧
    st'.refreshResults = st.refreshResults ∧
    st'.saveResults = st.saveResults ∧
    st'.deleteResults = st.deleteResults ∧
    (∃ Δ, st'.trace = st.trace ++ Δ ∧ ∀ ev ∈ Δ, isLoopEvent ev) ∧
    sessionSansTunnels session' = sessionSansTunnels session ∧
    (∀ e, tres = Except.error e → session' = session) ∧
    (∀ t, tres = Except.ok t → t = Tunnel.mk r' acl ∧
      session'.tunnels = session.tunnels ++ [t]) ∧
    (r.isLocalSpecified = true → r' = r ∧ st'.randomPorts = st.randomPorts) ∧
    (r.isLocalSpecified = false → st'.randomPorts = st.randomPorts.tail ∧
      ∀ t, tres = Except.ok t →
        ∃ p, st.randomPorts.head? = some (Except.ok p) ∧
          r' = { r with localPort := toString p, localHost := "0.0.0.0" }) := by
  by_cases hspec : r.isLocalSpecified
  · cases hok : st.startTunnelResults.head?.getD none with
    | some e1 =>
      simp only [stepRemote, resolveLocal, hspec, if_true, sessionStartTunnel, hok,
        Prod.mk.injEq] at h
      obtain ⟨htres, hr', hsess, hst⟩ := h
      subst htres; subst hr'; subst hsess; subst hst
      refine ⟨rfl, rfl, rfl, rfl, ⟨[Event.startTunnelEv r], rfl, ?_⟩, rfl,
        fun e he => rfl, fun t ht => by simp at ht, fun _ => ⟨rfl, rfl⟩, fun hf => ?_⟩
      · intro ev hev
        simp only [List.mem_singleton] at hev
        simp [hev, isLoopEvent]
      · rw [hspec] at hf; cases hf
    | none =>
      simp only [stepRemote, resolveLocal, hspec, if_true, sessionStartTunnel, hok,
        Prod.mk.injEq] at h
      obtain ⟨htres, hr', hsess, hst⟩ := h
      subst htres; subst hr'; subst hsess; subst hst
      refine ⟨rfl, rfl, rfl, rfl, ⟨[Event.startTunnelEv r], rfl, ?_⟩, rfl,
        fun e he => by simp at he, fun t ht => ?_, fun _ => ⟨rfl, rfl⟩, fun hf => ?_⟩
      · intro ev hev
        simp only [List.mem_singleton] at hev
        simp [hev, isLoopEvent]
      · obtain rfl : Tunnel.mk r acl = t := by simpa using ht
        exact ⟨rfl, rfl⟩
      · rw [hspec] at hf; cases hf
  · have hspec' : r.isLocalSpecified = false := by
      revert hspec; cases r.isLocalSpecified <;> simp
    cases hports : st.randomPorts with
    | nil =>
      simp only [stepRemote, resolveLocal, hspec', getRandomPortOp, hports,
        Bool.false_eq_true, if_false, List.head?_nil, List.tail_nil, Option.getD_none,
        Prod.mk.injEq] at h
      obtain ⟨htres, hr', hsess, hst⟩ := h
      subst htres; subst hr'; subst hsess; subst hst
      refine ⟨rfl, rfl, rfl, rfl, ⟨[Event.getPort], rfl, ?_⟩, rfl,
        fun e he => rfl, fun t ht => by simp at ht, fun ht => ?_, fun _ => ?_⟩
      · intro ev hev
        simp only [List.mem_singleton] at hev
        simp [hev, isLoopEvent]
      · rw [ht] at hspec'; cases hspec'
      · exact ⟨by simp [hports], fun t ht => by simp at ht⟩
    | cons hd tl =>
      cases hd with
      | error e1 =>
        simp only [stepRemote, resolveLocal, hspec', getRandomPortOp, hports,
          Bool.false_eq_true, if_false, List.head?_cons, List.tail_cons, Option.getD_some,
          Prod.mk.injEq] at h
        obtain ⟨htres, hr', hsess, hst⟩ := h
        subst htres; subst hr'; subst hsess; subst hst
        refine ⟨rfl, rfl, rfl, rfl, ⟨[Event.getPort], rfl, ?_⟩, rfl,
          fun e he => rfl, fun t ht => by simp at ht, fun ht => ?_, fun _ => ?_⟩
        · intro ev hev
          simp only [List.mem_singleton] at hev
          simp [hev, isLoopEvent]
        · rw [ht] at hspec'; cases hspec'
        · exact ⟨by simp [hports], fun t ht => by simp at ht⟩
      | ok p =>
        cases hok : st.startTunnelResults.head?.getD none with
        | some e1 =>
          simp only [stepRemote, resolveLocal, hspec', getRandomPortOp, hports,
            Bool.false_eq_true, if_false, List.head?_cons, List.tail_cons, Option.getD_some,
            sessionStartTunnel, hok, Prod.mk.injEq] at h
          obtain ⟨htres, hr', hsess, hst⟩ := h
          subst htres; subst hr'; subst hsess; subst hst
          refine ⟨rfl, rfl, rfl, rfl,
            ⟨[Event.getPort,
              Event.startTunnelEv { r with localPort := toString p, localHost := "0.0.0.0" }],
              by simp, ?_⟩, rfl,
            fun e he => rfl, fun t ht => by simp at ht, fun ht => ?_, fun _ => ?_⟩
          · intro ev hev
            simp only [List.mem_cons, List.mem_singleton, List.not_mem_nil, or_false] at hev
            rcases hev with h1 | h1 <;> simp [h1, isLoopEvent]
          · rw [ht] at hspec'; cases hspec'
          · exact ⟨by simp [hports], fun t ht => by simp at ht⟩
        | none =>
          simp only [stepRemote, resolveLocal, hspec', getRandomPortOp, hports,
            Bool.false_eq_true, if_false, List.head?_cons, List.tail_cons, Option.getD_some,
            sessionStartTunnel, hok, Prod.mk.injEq] at h
          obtain ⟨htres, hr', hsess, hst⟩ := h
          subst htres; subst hr'; subst hsess; subst hst
          refine ⟨rfl, rfl, rfl, rfl,
            ⟨[Event.getPort,
              Event.startTunnelEv { r with localPort := toString p, localHost := "0.0.0.0" }],
              by simp, ?_⟩, rfl,
            fun e he => by simp at he, fun t ht => ?_, fun ht => ?_, fun _ => ?_⟩
          · intro ev hev
            simp only [List.mem_cons, List.mem_singleton, List.not_mem_nil, or_false] at hev
            rcases hev with h1 | h1 <;> simp [h1, isLoopEvent]
          · obtain rfl :
              Tunnel.mk { r with localPort := toString p, localHost := "0.0.0.0" } acl = t := by
              simpa using ht
            exact ⟨rfl, rfl⟩
          · rw [ht] at hspec'; cases hspec'
          · exact ⟨by simp [hports], fun t _ => ⟨p, by simp [hports], rfl⟩⟩

theorem get?_zero_eq_head? {α : Type} (l : List α) : l.get? 0 = l.head? := by
  cases l <;> rfl

theorem get?_succ_eq_tail_get? {α : Type} (l : List α) (n : Nat) :
    l.get? (n + 1) = l.tail.get? n := by
  cases l <;> rfl

/-- Frame facts about the whole loop, for every outcome: the repository and
the refresh/save/delete oracle streams are untouched, every appended event is
a loop event, and the session changes only in its tunnel collection. -/
theorem startTunnelsLoop_frame (rs : List Remote) :
    ∀ (st : St) (session : ClientSession) (acl : TunnelACL)
      (res : Except String (List Tunnel)) (rem : List Remote)
      (session' : ClientSession) (st' : St),
      startTunnelsLoop st session acl rs = (res, rem, session', st') →
      st'.repo = st.repo ∧
      st'.refreshResults = st.refreshResults ∧
      st'.saveResults = st.saveResults ∧
      st'.deleteResults = st.deleteResults ∧
      (∃ Δ, st'.trace = st.trace ++ Δ ∧ ∀ ev ∈ Δ, isLoopEvent ev) ∧
      sessionSansTunnels session' = sessionSansTunnels session := by
  induction rs with
  | nil =>
    intro st session acl res rem session' st' h
    simp only [startTunnelsLoop, Prod.mk.injEq] at h
    obtain ⟨h1, h2, h3, h4⟩ := h
    subst h1; subst h2; subst h3; subst h4
    exact ⟨rfl, rfl, rfl, rfl, ⟨[], by simp, by simp⟩, rfl⟩
  | cons r rs ih =>
    intro st session acl res rem session' st' h
    rcases hstep : stepRemote st session acl r with ⟨tres, r1, session1, st1⟩
    obtain ⟨hrepo, href, hsave, hdel, ⟨Δ1, hΔ1, hΔ1ev⟩, hsans, _herr, _hok, -, -⟩ :=
      stepRemote_spec st session acl r tres r1 session1 st1 hstep
    cases tres with
    | error e =>
      simp only [startTunnelsLoop, hstep, Prod.mk.injEq] at h
      obtain ⟨h1, h2, h3, h4⟩ := h
      subst h1; subst h2; subst h3; subst h4
      exact ⟨hrepo, href, hsave, hdel, ⟨Δ1, hΔ1, hΔ1ev⟩, hsans⟩
    | ok t =>
      rcases hloop : startTunnelsLoop st1 session1 acl rs with ⟨res2, rem2, session2, st2⟩
      obtain ⟨ihrepo, ihref, ihsave, ihdel, ⟨Δ2, hΔ2, hΔ2ev⟩, ihsans⟩ :=
        ih st1 session1 acl res2 rem2 session2 st2 hloop
      simp only [startTunnelsLoop, hstep, hloop, Prod.mk.injEq] at h
      obtain ⟨h1, h2, h3, h4⟩ := h
      subst h1; subst h2; subst h3; subst h4
      refine ⟨by rw [ihrepo, hrepo], by rw [ihref, href], by rw [ihsave, hsave],
        by rw [ihdel, hdel], ⟨Δ1 ++ Δ2, ?_, ?_⟩, by rw [ihsans, hsans]⟩
      · rw [hΔ2, hΔ1, List.append_assoc]
      · intro ev hev
        rcases List.mem_append.mp hev with h' | h'
        · exact hΔ1ev ev h'
        · exact hΔ2ev ev h'

/-- Fail-fast: when the loop fails, it behaves exactly as if the remote list
had been cut right after the failing remote — same result, same session and
state, and the remotes past the failing one are returned untouched. -/
theorem startTunnelsLoop_error_take (rs : List Remote) :
    ∀ (st : St) (session : ClientSession) (acl : TunnelACL) (e : String),
      (startTunnelsLoop st session acl rs).1 = Except.error e →
      ∃ k, 0 < k ∧ k ≤ rs.length ∧
        startTunnelsLoop st session acl rs =
          ((startTunnelsLoop st session acl (rs.take k)).1,
           (startTunnelsLoop st session acl (rs.take k)).2.1 ++ rs.drop k,
           (startTunnelsLoop st session acl (rs.take k)).2.2) := by
  induction rs with
  | nil =>
    intro st session acl e h
    exact absurd h (by simp [startTunnelsLoop])
  | cons r rs ih =>
    intro st session acl e h
    rcases hstep : stepRemote st session acl r with ⟨tres, r1, session1, st1⟩
    cases tres with
    | error e1 =>
      refine ⟨1, Nat.one_pos, by simp, ?_⟩
      simp [startTunnelsLoop, hstep]
    | ok t =>
      rcases hloop : startTunnelsLoop st1 session1 acl rs with ⟨res2, rem2, session2, st2⟩
      have hres2 : res2 = Except.error e := by
        simp only [startTunnelsLoop, hstep, hloop] at h
        cases hr2 : res2 with
        | ok ts => rw [hr2] at h; simp at h
        | error e' => rw [hr2] at h; simp at h; rw [h]
      obtain ⟨k, hk0, hkle, htrunc⟩ := ih st1 session1 acl e (by rw [hloop, hres2])
      have htr1 : (startTunnelsLoop st1 session1 acl (rs.take k)).1 = Except.error e := by
        have := congrArg (fun q => q.1) htrunc
        simp only [hloop] at this
        rw [← this, hres2]
      refine ⟨k + 1, Nat.succ_pos k, Nat.succ_le_succ hkle, ?_⟩
      rw [hloop] at htrunc
      simp only [Prod.mk.injEq] at htrunc
      obtain ⟨ht1, ht2, ht3⟩ := htrunc
      rw [List.take_succ_cons, List.drop_succ_cons]
      simp only [startTunnelsLoop, hstep, hloop, htr1]
      simp [hres2, ht2, ← ht3]

/-- What a fully successful loop produces: one tunnel per remote, in order,
each built from the final value of its remote and the given ACL; the tunnels
are appended to the session in order; and each remote is kept verbatim when
it specifies its local endpoint, else rewritten to local host `"0.0.0.0"` and
the decimal rendering of the allocator port consumed for it (the `n`-th
unspecified remote gets the `n`-th allocator answer). -/
theorem startTunnelsLoop_ok_spec (rs : List Remote) :
    ∀ (st : St) (session : ClientSession) (acl : TunnelACL) (ts : List Tunnel)
      (rem : List Remote) (session' : ClientSession) (st' : St),
      startTunnelsLoop st session acl rs = (Except.ok ts, rem, session', st') →
      rem.length = rs.length ∧
      ts = rem.map (fun r => Tunnel.mk r acl) ∧
      session'.tunnels = session.tunnels ++ ts ∧
      ∀ i r₀, rs.get? i = some r₀ →
        (r₀.isLocalSpecified = true → rem.get? i = some r₀) ∧
        (r₀.isLocalSpecified = false →
          ∃ p, st.randomPorts.get? (countNoLocal (rs.take i)) = some (Except.ok p) ∧
            rem.get? i = some { r₀ with localPort := toString p, localHost := "0.0.0.0" }) := by
  induction rs with
  | nil =>
    intro st session acl ts rem session' st' h
    simp only [startTunnelsLoop, Prod.mk.injEq, Except.ok.injEq] at h
    obtain ⟨h1, h2, h3, h4⟩ := h
    subst h1; subst h2; subst h3; subst h4
    refine ⟨rfl, rfl, by simp, ?_⟩
    intro i r₀ hi
    simp at hi
  | cons r rs ih =>
    intro st session acl ts rem session' st' h
    rcases hstep : stepRemote st session acl r with ⟨tres, r1, session1, st1⟩
    cases tres with
    | error e =>
      simp [startTunnelsLoop, hstep] at h
    | ok t =>
      rcases hloop : startTunnelsLoop st1 session1 acl rs with ⟨res2, rem2, session2, st2⟩
      simp only [startTunnelsLoop, hstep, hloop] at h
      cases res2 with
      | error e => simp at h
      | ok ts2 =>
        simp only [Prod.mk.injEq, Except.ok.injEq] at h
        obtain ⟨hts, hrem, hsess, hst⟩ := h
        subst hts; subst hrem; subst hsess; subst hst
        obtain ⟨-, -, -, -, -, -, -, hokT, hspecT, hunspecT⟩ :=
          stepRemote_spec st session acl r (Except.ok t) r1 session1 st1 hstep
        obtain ⟨htEq, htuns⟩ := hokT t rfl
        obtain ⟨ihlen, ihmap, ihtuns, ihidx⟩ := ih st1 session1 acl ts2 rem2 session2 st2 hloop
        refine ⟨by simp [ihlen], by simp [ihmap, htEq], ?_, ?_⟩
        · rw [ihtuns, htuns]; simp
        · intro i r₀ hi
          cases i with
          | zero =>
            simp only [List.get?_cons_zero, Option.some.injEq] at hi
            subst hi
            constructor
            · intro hsp
              obtain ⟨hr1, -⟩ := hspecT hsp
              simp [hr1]
            · intro hsp
              obtain ⟨-, hex⟩ := hunspecT hsp
              obtain ⟨p, hhead, hr1⟩ := hex t rfl
              refine ⟨p, ?_, by simp [hr1]⟩
              rw [List.take_zero, countNoLocal_nil, get?_zero_eq_head?]
              exact hhead
          | succ i =>
            simp only [List.get?_cons_succ] at hi
            have hidx := ihidx i r₀ hi
            constructor
            · intro hsp
              have := hidx.1 hsp
              simpa [List.get?_cons_succ] using this
            · intro hsp
              obtain ⟨p, hp1, hp2⟩ := hidx.2 hsp
              refine ⟨p, ?_, by simpa [List.get?_cons_succ] using hp2⟩
              rw [List.take_succ_cons, countNoLocal_cons]
              by_cases hspr : r.isLocalSpecified
              · obtain ⟨-, hpeq⟩ := hspecT hspr
                simp only [hspr, if_true]
                rw [← hpeq]
                exact hp1
              · have hspr' : r.isLocalSpecified = false := by
                  revert hspr; cases r.isLocalSpecified <;> simp
                obtain ⟨hptail, -⟩ := hunspecT hspr'
                simp only [hspr', Bool.false_eq_true, if_false]
                rw [get?_succ_eq_tail_get?, ← hptail]
                exact hp1

/-- Two sessions that agree after erasing their tunnel collections agree on
every individual non-tunnel field. -/
theorem sansFields {a b : ClientSession}
    (h : sessionSansTunnels a = sessionSansTunnels b) :
    a.id = b.id ∧ a.name = b.name ∧ a.tags = b.tags ∧ a.os = b.os ∧
    a.hostname = b.hostname ∧ a.version = b.version ∧ a.ipv4 = b.ipv4 ∧
    a.ipv6 = b.ipv6 ∧ a.address = b.address ∧ a.connection = b.connection ∧
    a.context = b.context ∧ a.user = b.user ∧ a.logger = b.logger ∧
    a.disconnected = b.disconnected := by
  cases a
  cases b
  simp only [sessionSansTunnels, ClientSession.mk.injEq] at h
  simp_all

/-- Frame facts about `startSessionTunnels` as a whole, for every outcome:
the repository and the save/delete oracle streams are untouched, the trace
grows by the refresh event followed only by loop events, and the session
changes only in its tunnel collection. -/
theorem startSessionTunnels_frame (st : St) (session : ClientSession)
    (remotes : List Remote) (acl : TunnelACL)
    (res : Except String (List Tunnel)) (rem : List Remote)
    (session' : ClientSession) (st' : St)
    (h : startSessionTunnels st session remotes acl = (res, rem, session', st')) :
    st'.repo = st.repo ∧
    st'.saveResults = st.saveResults ∧
    st'.deleteResults = st.deleteResults ∧
    (∃ Δ, st'.trace = st.trace ++ Event.refresh :: Δ ∧ ∀ ev ∈ Δ, isLoopEvent ev) ∧
    sessionSansTunnels session' = sessionSansTunnels session := by
  cases hr : st.refreshResults.head?.getD none with
  | some e =>
    simp only [startSessionTunnels, refreshOp, hr, Prod.mk.injEq] at h
    obtain ⟨h1, h2, h3, h4⟩ := h
    subst h1; subst h2; subst h3; subst h4
    exact ⟨rfl, rfl, rfl, ⟨[], rfl, by simp⟩, rfl⟩
  | none =>
    simp only [startSessionTunnels, refreshOp, hr] at h
    obtain ⟨h1, h2, h3, h4, ⟨Δ, hΔ, hΔev⟩, h6⟩ :=
      startTunnelsLoop_frame remotes _ session acl res rem session' st' h
    refine ⟨by simpa using h1, by simpa using h3, by simpa using h4, ⟨Δ, ?_, hΔev⟩, h6⟩
    rw [hΔ]
    simp

/-- C3: every `StartSessionTunnels` call invokes the allocator's `Refresh`
exactly once, before any port allocation or tunnel start of the batch; and
when `Refresh` fails the call returns that error with no port allocated, no
tunnel started, and the remotes, session, repository and port stream all
untouched (only the refresh outcome is consumed and the refresh call
recorded). -/
theorem spec_C3 (st : St) (session : ClientSession) (remotes : List Remote) (acl : TunnelACL) :
    (∃ Δ, (startSessionTunnels st session remotes acl).2.2.2.trace =
        st.trace ++ Event.refresh :: Δ ∧ (∀ ev ∈ Δ, isLoopEvent ev) ∧ Event.refresh ∉ Δ) ∧
    (∀ e, st.refreshResults.head?.getD none = some e →
      startSessionTunnels st session remotes acl =
        (Except.error e, remotes, session,
         { st with refreshResults := st.refreshResults.tail,
                   trace := st.trace ++ [Event.refresh] })) := by
  constructor
  · rcases h : startSessionTunnels st session remotes acl with ⟨res, rem, session', st'⟩
    obtain ⟨-, -, -, ⟨Δ, hΔ, hΔev⟩, -⟩ :=
      startSessionTunnels_frame st session remotes acl res rem session' st' h
    exact ⟨Δ, hΔ, hΔev, fun hmem => hΔev _ hmem⟩
  · intro e he
    simp [startSessionTunnels, refreshOp, he]

theorem spec_C3_witness :
    startSessionTunnels stRefreshFail session0 [rAuto] (TunnelACL.mk []) =
      (Except.error "occupancy source down", [rAuto], session0,
       { stRefreshFail with refreshResults := [], trace := [Event.refresh] }) :=
  (spec_C3 stRefreshFail session0 [rAuto] (TunnelACL.mk [])).2 "occupancy source down" rfl

/-- C8: `Count`, `GetActiveByID` and `GetAll` of the session service are pure
delegation to the repository: for every state and identifier they return
exactly the repository operation's result — value and error alike, with no
reinterpretation. -/
theorem spec_C8 (st : St) (id : String) :
    serviceCount st = st.repo.count ∧
    serviceGetActiveByID st id = st.repo.getActiveByID id ∧
    serviceGetAll st = st.repo.getAll :=
  ⟨rfl, rfl, rfl⟩

/-- C1: when the allocator refresh succeeded but instantiating a tunnel for
some remote of the batch fails, `StartSessionTunnels` returns that error
immediately: the whole call is equal to the call truncated right after the
failing remote (so no later remote is attempted — no further port allocation
or tunnel start — and the later remotes are returned untouched), the
repository is untouched, and no save or delete call is made by this method
(tunnels successfully created before the failure were appended by the
delegated `StartTunnel` calls, per the spec's own caveat). -/
theorem spec_C1 (st : St) (session : ClientSession) (remotes : List Remote)
    (acl : TunnelACL) (e : String)
    (hrefresh : st.refreshResults.head?.getD none = none)
    (h : (startSessionTunnels st session remotes acl).1 = Except.error e) :
    (startSessionTunnels st session remotes acl).2.2.2.repo = st.repo ∧
    (∃ Δ, (startSessionTunnels st session remotes acl).2.2.2.trace = st.trace ++ Δ ∧
      ∀ ev ∈ Δ, (∀ i, ev ≠ Event.saveEv i) ∧ (∀ i, ev ≠ Event.deleteEv i)) ∧
    ∃ k, 0 < k ∧ k ≤ remotes.length ∧
      startSessionTunnels st session remotes acl =
        ((startSessionTunnels st session (remotes.take k) acl).1,
         (startSessionTunnels st session (remotes.take k) acl).2.1 ++ remotes.drop k,
         (startSessionTunnels st session (remotes.take k) acl).2.2) := by
  have hunfold : startSessionTunnels st session remotes acl =
      startTunnelsLoop { st with refreshResults := st.refreshResults.tail,
                                 trace := st.trace ++ [Event.refresh] } session acl remotes := by
    simp [startSessionTunnels, refreshOp, hrefresh]
  rcases hfull : startSessionTunnels st session remotes acl with ⟨res, rem, session', st'⟩
  obtain ⟨hrepo, -, -, ⟨Δ, hΔ, hΔev⟩, -⟩ :=
    startSessionTunnels_frame st session remotes acl res rem session' st' hfull
  refine ⟨hrepo, ⟨Event.refresh :: Δ, hΔ, ?_⟩, ?_⟩
  · intro ev hev
    rcases List.mem_cons.mp hev with h' | h'
    · subst h'
      exact ⟨fun i => by simp, fun i => by simp⟩
    · have hle := hΔev ev h'
      cases ev <;> simp [isLoopEvent] at hle ⊢
  · rw [hunfold] at h hfull
    obtain ⟨k, hk0, hkle, htr⟩ := startTunnelsLoop_error_take remotes _ session acl e h
    have hUTk : startSessionTunnels st session (remotes.take k) acl =
        startTunnelsLoop { st with refreshResults := st.refreshResults.tail,
                                   trace := st.trace ++ [Event.refresh] } session acl
          (remotes.take k) := by
      simp [startSessionTunnels, refreshOp, hrefresh]
    refine ⟨k, hk0, hkle, ?_⟩
    rw [hUTk, ← hfull]
    exact htr

theorem spec_C1_witness :
    (startSessionTunnels stTunnelFail session0 [rSpec, rAuto] (TunnelACL.mk [])).2.2.2.repo =
        stTunnelFail.repo ∧
    (∃ Δ, (startSessionTunnels stTunnelFail session0 [rSpec, rAuto]
        (TunnelACL.mk [])).2.2.2.trace = stTunnelFail.trace ++ Δ ∧
      ∀ ev ∈ Δ, (∀ i, ev ≠ Event.saveEv i) ∧ (∀ i, ev ≠ Event.deleteEv i)) ∧
    ∃ k, 0 < k ∧ k ≤ [rSpec, rAuto].length ∧
      startSessionTunnels stTunnelFail session0 [rSpec, rAuto] (TunnelACL.mk []) =
        ((startSessionTunnels stTunnelFail session0 ([rSpec, rAuto].take k)
            (TunnelACL.mk [])).1,
         (startSessionTunnels stTunnelFail session0 ([rSpec, rAuto].take k)
            (TunnelACL.mk [])).2.1 ++ [rSpec, rAuto].drop k,
         (startSessionTunnels stTunnelFail session0 ([rSpec, rAuto].take k)
            (TunnelACL.mk [])).2.2) :=
  spec_C1 stTunnelFail session0 [rSpec, rAuto] (TunnelACL.mk []) "bind error" rfl rfl

/-- The success behaviour of `startSessionTunnels`, lifted from the loop
through the refresh step. -/
theorem startSessionTunnels_ok_spec (st : St) (session : ClientSession) (acl : TunnelACL)
    (remotes : List Remote) (ts : List Tunnel) (rem : List Remote)
    (session' : ClientSession) (st' : St)
    (h : startSessionTunnels st session remotes acl = (Except.ok ts, rem, session', st')) :
    rem.length = remotes.length ∧
    ts = rem.map (fun r => Tunnel.mk r acl) ∧
    session'.tunnels = session.tunnels ++ ts ∧
    ∀ i r₀, remotes.get? i = some r₀ →
      (r₀.isLocalSpecified = true → rem.get? i = some r₀) ∧
      (r₀.isLocalSpecified = false →
        ∃ p, st.randomPorts.get? (countNoLocal (remotes.take i)) = some (Except.ok p) ∧
          rem.get? i = some { r₀ with localPort := toString p, localHost := "0.0.0.0" }) := by
  cases hr : st.refreshResults.head?.getD none with
  | some e => simp [startSessionTunnels, refreshOp, hr] at h
  | none =>
    simp only [startSessionTunnels, refreshOp, hr] at h
    obtain ⟨h1, h2, h3, h4⟩ :=
      startTunnelsLoop_ok_spec remotes _ session acl ts rem session' st' h
    refine ⟨h1, h2, h3, fun i r₀ hi => ⟨(h4 i r₀ hi).1, fun hf => ?_⟩⟩
    obtain ⟨p, hp1, hp2⟩ := (h4 i r₀ hi).2 hf
    exact ⟨p, by simpa using hp1, hp2⟩

/-- C4: on a successful `StartSessionTunnels` call, the remotes are processed
in the order given and, for each one: if it does not specify its local
endpoint, its tunnel's final remote has local host `"0.0.0.0"` and a local
port that is the decimal rendering of the allocator answer consumed for it
(the `n`-th unspecified remote gets the `n`-th `GetRandomPort` result); if it
does specify its local endpoint, it is used verbatim, consuming no allocator
answer. -/
theorem spec_C4 (st : St) (session : ClientSession) (acl : TunnelACL) (remotes : List Remote)
    (ts : List Tunnel) (rem : List Remote) (session' : ClientSession) (st' : St)
    (h : startSessionTunnels st session remotes acl = (Except.ok ts, rem, session', st'))
    (i : Nat) (r₀ : Remote) (hi : remotes.get? i = some r₀) :
    ∃ r₁, rem.get? i = some r₁ ∧ ts.get? i = some (Tunnel.mk r₁ acl) ∧
      (r₀.isLocalSpecified = true → r₁ = r₀) ∧
      (r₀.isLocalSpecified = false →
        r₁.localHost = "0.0.0.0" ∧
        ∃ p, st.randomPorts.get? (countNoLocal (remotes.take i)) = some (Except.ok p) ∧
          r₁.localPort = toString p) := by
  obtain ⟨hlen, hmap, htuns, hidx⟩ :=
    startSessionTunnels_ok_spec st session acl remotes ts rem session' st' h
  obtain ⟨hspec, hunspec⟩ := hidx i r₀ hi
  cases hb : r₀.isLocalSpecified with
  | true =>
    have h1 := hspec hb
    refine ⟨r₀, h1, ?_, fun _ => rfl, fun hf => Bool.noConfusion hf⟩
    rw [hmap, List.get?_map, h1]
    rfl
  | false =>
    obtain ⟨p, hp1, hp2⟩ := hunspec hb
    refine ⟨{ r₀ with localPort := toString p, localHost := "0.0.0.0" }, hp2, ?_, ?_, ?_⟩
    · rw [hmap, List.get?_map, hp2]
      rfl
    · exact fun ht => Bool.noConfusion ht
    · intro _
      exact ⟨rfl, p, hp1, rfl⟩

theorem spec_C4_witness :
    ∃ r₁, remSuccess.get? 1 = some r₁ ∧ tsSuccess.get? 1 = some (Tunnel.mk r₁ aclDefault) ∧
      (rAuto.isLocalSpecified = true → r₁ = rAuto) ∧
      (rAuto.isLocalSpecified = false →
        r₁.localHost = "0.0.0.0" ∧
        ∃ p, st0.randomPorts.get? (countNoLocal ([rSpec, rAuto].take 1)) =
            some (Except.ok p) ∧
          r₁.localPort = toString p) :=
  spec_C4 st0 session0 aclDefault [rSpec, rAuto] tsSuccess remSuccess sessSuccess stSuccess
    rfl 1 rAuto rfl

/-- C5: on a fully successful `StartSessionTunnels` call the returned list
has exactly one tunnel per requested remote, in the same order: the `i`-th
tunnel carries the given ACL and forwards the `i`-th remote's client-side
endpoint. -/
theorem spec_C5 (st : St) (session : ClientSession) (acl : TunnelACL) (remotes : List Remote)
    (ts : List Tunnel) (rem : List Remote) (session' : ClientSession) (st' : St)
    (h : startSessionTunnels st session remotes acl = (Except.ok ts, rem, session', st')) :
    ts.length = remotes.length ∧
    ∀ i r₀, remotes.get? i = some r₀ →
      ∃ t, ts.get? i = some t ∧ t.acl = acl ∧
        t.remote.remoteHost = r₀.remoteHost ∧ t.remote.remotePort = r₀.remotePort := by
  obtain ⟨hlen, hmap, -, hidx⟩ :=
    startSessionTunnels_ok_spec st session acl remotes ts rem session' st' h
  refine ⟨by rw [hmap, List.length_map]; exact hlen, ?_⟩
  intro i r₀ hi
  obtain ⟨hspec, hunspec⟩ := hidx i r₀ hi
  cases hb : r₀.isLocalSpecified with
  | true =>
    have h1 := hspec hb
    refine ⟨Tunnel.mk r₀ acl, ?_, rfl, rfl, rfl⟩
    rw [hmap, List.get?_map, h1]
    rfl
  | false =>
    obtain ⟨p, hp1, hp2⟩ := hunspec hb
    refine ⟨Tunnel.mk { r₀ with localPort := toString p, localHost := "0.0.0.0" } acl,
      ?_, rfl, rfl, rfl⟩
    rw [hmap, List.get?_map, hp2]
    rfl

theorem spec_C5_witness :
    tsSuccess.length = [rSpec, rAuto].length ∧
    ∃ t, tsSuccess.get? 0 = some t ∧ t.acl = aclDefault ∧
      t.remote.remoteHost = rSpec.remoteHost ∧ t.remote.remotePort = rSpec.remotePort :=
  ⟨(spec_C5 st0 session0 aclDefault [rSpec, rAuto] tsSuccess remSuccess sessSuccess stSuccess
      rfl).1,
   (spec_C5 st0 session0 aclDefault [rSpec, rAuto] tsSuccess remSuccess sessSuccess stSuccess
      rfl).2 0 rSpec rfl⟩

/-- C10: on a successful `StartSessionTunnels` call, each caller-supplied
remote that did not specify its local endpoint is written back (the Go code
mutates the pointee): its final value has the allocated port as a decimal
string and local host `"0.0.0.0"`, while every remote that specified its
local endpoint comes out exactly as it went in. -/
theorem spec_C10 (st : St) (session : ClientSession) (acl : TunnelACL) (remotes : List Remote)
    (ts : List Tunnel) (rem : List Remote) (session' : ClientSession) (st' : St)
    (h : startSessionTunnels st session remotes acl = (Except.ok ts, rem, session', st'))
    (i : Nat) (r₀ : Remote) (hi : remotes.get? i = some r₀) :
    (r₀.isLocalSpecified = false →
      ∃ p, st.randomPorts.get? (countNoLocal (remotes.take i)) = some (Except.ok p) ∧
        rem.get? i = some { r₀ with localPort := toString p, localHost := "0.0.0.0" }) ∧
    (r₀.isLocalSpecified = true → rem.get? i = some r₀) := by
  obtain ⟨-, -, -, hidx⟩ :=
    startSessionTunnels_ok_spec st session acl remotes ts rem session' st' h
  exact ⟨(hidx i r₀ hi).2, (hidx i r₀ hi).1⟩

theorem spec_C10_witness :
    (rAuto.isLocalSpecified = false →
      ∃ p, st0.randomPorts.get? (countNoLocal ([rSpec, rAuto].take 1)) =
          some (Except.ok p) ∧
        remSuccess.get? 1 = some { rAuto with localPort := toString p,
                                              localHost := "0.0.0.0" }) ∧
    (rAuto.isLocalSpecified = true → remSuccess.get? 1 = some rAuto) :=
  spec_C10 st0 session0 aclDefault [rSpec, rAuto] tsSuccess remSuccess sessSuccess stSuccess
    rfl 1 rAuto rfl

/-- C6: `Terminate` branches only on the retention policy flag read at call
time.  When lost clients are not retained (`KeepLostClients` nil) it deletes
the session from the repository and sets no disconnection timestamp; when the
flag is present it stamps the session's disconnection timestamp with the
current time and re-saves it.  In both branches the repository error, if any,
is returned as-is. -/
theorem spec_C6 (st : St) (now : Nat) (session : ClientSession) :
    (st.repo.keepLostClients = none →
       (terminate st now session).2.1 = session ∧
       (terminate st now session).2.2.trace = st.trace ++ [Event.deleteEv session.id] ∧
       (terminate st now session).1 = st.deleteResults.head?.getD none ∧
       (st.deleteResults.head?.getD none = none →
          (terminate st now session).2.2.repo.sessions =
            repoRemove st.repo.sessions session.id)) ∧
    (st.repo.keepLostClients ≠ none →
       (terminate st now session).2.1 = { session with disconnected := some now } ∧
       (terminate st now session).2.2.trace = st.trace ++ [Event.saveEv session.id] ∧
       (terminate st now session).1 = st.saveResults.head?.getD none ∧
       (st.saveResults.head?.getD none = none →
          (terminate st now session).2.2.repo.sessions =
            repoUpsert st.repo.sessions { session with disconnected := some now })) := by
  constructor
  · intro hkeep
    cases hd : st.deleteResults.head?.getD none <;>
      simp [terminate, hkeep, repoDeleteOp, hd]
  · intro hkeep
    have hkeep' : ¬st.repo.keepLostClients = none := hkeep
    cases hd : st.saveResults.head?.getD none <;>
      simp [terminate, hkeep', repoSaveOp, hd]

theorem spec_C6_witness :
    (terminate st0 42 session0).2.1 = session0 ∧
    (terminate st0 42 session0).2.2.trace = st0.trace ++ [Event.deleteEv session0.id] ∧
    (terminate st0 42 session0).2.2.repo.sessions =
      repoRemove st0.repo.sessions session0.id := by
  have h := (spec_C6 st0 42 session0).1 rfl
  exact ⟨h.1, h.2.1, h.2.2.2 rfl⟩

/-- C7: a session's disconnection timestamp is nil while its transport is
live and the connected-to-disconnected transition is one-directional: a
successfully started client session comes out with a live transport handle
and a nil timestamp; `StartSessionTunnels` never touches the timestamp;
`Terminate` sets it (to the current time) exactly in the retain branch and
leaves the session untouched in the delete branch; and no service operation
clears a set timestamp. -/
theorem spec_C7 :
    (∀ (st : St) (ctx : Nat) (sid : String) (conn : Conn) (req : ConnectionRequest)
       (user : Nat) (clog : Nat) (sess : ClientSession),
       (startClientSession st ctx sid conn req user clog).1 = Except.ok sess →
       sess.disconnected = none ∧ sess.connection = some conn) ∧
    (∀ (st : St) (session : ClientSession) (remotes : List Remote) (acl : TunnelACL),
       (startSessionTunnels st session remotes acl).2.2.1.disconnected =
         session.disconnected) ∧
    (∀ (st : St) (now : Nat) (session : ClientSession),
       st.repo.keepLostClients = none → (terminate st now session).2.1 = session) ∧
    (∀ (st : St) (now : Nat) (session : ClientSession),
       st.repo.keepLostClients ≠ none →
       (terminate st now session).2.1.disconnected = some now) ∧
    (∀ (st : St) (now : Nat) (session : ClientSession),
       session.disconnected ≠ none →
       (terminate st now session).2.1.disconnected ≠ none) := by
  refine ⟨?_, ?_, ?_, ?_, ?_⟩
  · intro st ctx sid conn req user clog sess hok
    rcases hinner : startSessionTunnels st (mkClientSession ctx sid conn req user clog)
        req.remotes (TunnelACL.mk []) with ⟨res1, rem1, sess1, st1⟩
    obtain ⟨-, -, -, -, hsans⟩ :=
      startSessionTunnels_frame st (mkClientSession ctx sid conn req user clog)
        req.remotes (TunnelACL.mk []) res1 rem1 sess1 st1 hinner
    obtain ⟨-, -, -, -, -, -, -, -, -, hconn, -, -, -, hdisc⟩ := sansFields hsans
    cases res1 with
    | error e => simp [startClientSession, hinner] at hok
    | ok ts =>
      cases hs : st1.saveResults.head?.getD none with
      | some e => simp [startClientSession, hinner, repoSaveOp, hs] at hok
      | none =>
        simp only [startClientSession, hinner, repoSaveOp, hs, Except.ok.injEq] at hok
        subst hok
        refine ⟨?_, ?_⟩
        · rw [hdisc]; rfl
        · rw [hconn]; rfl
  · intro st session remotes acl
    rcases h : startSessionTunnels st session remotes acl with ⟨res, rem, session', st'⟩
    obtain ⟨-, -, -, -, hsans⟩ :=
      startSessionTunnels_frame st session remotes acl res rem session' st' h
    obtain ⟨-, -, -, -, -, -, -, -, -, -, -, -, -, hdisc⟩ := sansFields hsans
    exact hdisc
  · intro st now session hkeep
    simp [terminate, hkeep]
  · intro st now session hkeep
    have hkeep' : ¬st.repo.keepLostClients = none := hkeep
    simp [terminate, hkeep']
  · intro st now session hdisc
    by_cases hkeep : st.repo.keepLostClients = none
    · simpa [terminate, hkeep] using hdisc
    · simp [terminate, hkeep]

theorem spec_C7_witness :
    sessSuccess.disconnected = none ∧ sessSuccess.connection = some conn0 :=
  spec_C7.1 st0 1 "sid-1" conn0 req0 7 3 sessSuccess rfl

/-- C2: `StartClientSession` persists nothing when anything fails and
persists exactly the built session when everything succeeds: a failure of
`StartSessionTunnels` or of the final `Save` is returned as the call's error
and leaves the repository's stored sessions unchanged; when every tunnel
starts and `Save` succeeds, the returned session is the one upserted into the
repository. -/
theorem spec_C2 (st : St) (ctx : Nat) (sid : String) (conn : Conn)
    (req : ConnectionRequest) (user : Nat) (clog : Nat) :
    (∀ e, (startClientSession st ctx sid conn req user clog).1 = Except.error e →
       (startClientSession st ctx sid conn req user clog).2.repo.sessions =
         st.repo.sessions) ∧
    (∀ sess, (startClientSession st ctx sid conn req user clog).1 = Except.ok sess →
       (startClientSession st ctx sid conn req user clog).2.repo.sessions =
         repoUpsert st.repo.sessions sess) ∧
    (∀ e, (startSessionTunnels st (mkClientSession ctx sid conn req user clog)
        req.remotes (TunnelACL.mk [])).1 = Except.error e →
       (startClientSession st ctx sid conn req user clog).1 = Except.error e) ∧
    (∀ ts rem session1 st1 e,
       startSessionTunnels st (mkClientSession ctx sid conn req user clog) req.remotes
           (TunnelACL.mk []) = (Except.ok ts, rem, session1, st1) →
       st1.saveResults.head?.getD none = some e →
       (startClientSession st ctx sid conn req user clog).1 = Except.error e) ∧
    (∀ ts rem session1 st1,
       startSessionTunnels st (mkClientSession ctx sid conn req user clog) req.remotes
           (TunnelACL.mk []) = (Except.ok ts, rem, session1, st1) →
       st1.saveResults.head?.getD none = none →
       (startClientSession st ctx sid conn req user clog).1 = Except.ok session1) := by
  rcases hinner : startSessionTunnels st (mkClientSession ctx sid conn req user clog)
      req.remotes (TunnelACL.mk []) with ⟨res1, rem1, sess1, st1⟩
  obtain ⟨hrepoEq, hsaveEq, -, -, -⟩ :=
    startSessionTunnels_frame st (mkClientSession ctx sid conn req user clog)
      req.remotes (TunnelACL.mk []) res1 rem1 sess1 st1 hinner
  cases res1 with
  | error e0 =>
    refine ⟨?_, ?_, ?_, ?_, ?_⟩
    · intro e he
      simp only [startClientSession, hinner]
      rw [hrepoEq]
    · intro sess hok
      simp [startClientSession, hinner] at hok
    · intro e he
      have he' : e0 = e := by simpa using he
      subst he'
      simp [startClientSession, hinner]
    · intro ts rem session1 st1' e hin2 hs
      simp at hin2
    · intro ts rem session1 st1' hin2 hs
      simp at hin2
  | ok ts0 =>
    cases hs : st1.saveResults.head?.getD none with
    | some e0 =>
      refine ⟨?_, ?_, ?_, ?_, ?_⟩
      · intro e he
        simp only [startClientSession, hinner, repoSaveOp, hs]
        rw [hrepoEq]
      · intro sess hok
        simp [startClientSession, hinner, repoSaveOp, hs] at hok
      · intro e he
        simp at he
      · intro ts rem session1 st1' e hin2 hs'
        simp only [Prod.mk.injEq, Except.ok.injEq] at hin2
        obtain ⟨h1, h2, h3, h4⟩ := hin2
        subst h1; subst h2; subst h3; subst h4
        rw [hs] at hs'
        simp only [Option.some.injEq] at hs'
        subst hs'
        simp [startClientSession, hinner, repoSaveOp, hs]
      · intro ts rem session1 st1' hin2 hs'
        simp only [Prod.mk.injEq, Except.ok.injEq] at hin2
        obtain ⟨h1, h2, h3, h4⟩ := hin2
        subst h1; subst h2; subst h3; subst h4
        rw [hs] at hs'
        cases hs'
    | none =>
      refine ⟨?_, ?_, ?_, ?_, ?_⟩
      · intro e he
        simp [startClientSession, hinner, repoSaveOp, hs] at he
      · intro sess hok
        simp only [startClientSession, hinner, repoSaveOp, hs, Except.ok.injEq] at hok
        subst hok
        simp only [startClientSession, hinner, repoSaveOp, hs]
        simp [hrepoEq]
      · intro e he
        simp at he
      · intro ts rem session1 st1' e hin2 hs'
        simp only [Prod.mk.injEq, Except.ok.injEq] at hin2
        obtain ⟨h1, h2, h3, h4⟩ := hin2
        subst h1; subst h2; subst h3; subst h4
        rw [hs] at hs'
        cases hs'
      · intro ts rem session1 st1' hin2 hs'
        simp only [Prod.mk.injEq, Except.ok.injEq] at hin2
        obtain ⟨h1, h2, h3, h4⟩ := hin2
        subst h1; subst h2; subst h3; subst h4
        simp [startClientSession, hinner, repoSaveOp, hs]

theorem spec_C2_witness :
    (startClientSession st0 1 "sid-1" conn0 req0 7 3).1 = Except.ok sessSuccess ∧
    (startClientSession st0 1 "sid-1" conn0 req0 7 3).2.repo.sessions =
      repoUpsert st0.repo.sessions sessSuccess := by
  have h := spec_C2 st0 1 "sid-1" conn0 req0 7 3
  have hok : (startClientSession st0 1 "sid-1" conn0 req0 7 3).1 = Except.ok sessSuccess :=
    h.2.2.2.2 tsSuccess remSuccess sessSuccess stSuccess rfl rfl
  exact ⟨hok, h.2.1 sessSuccess hok⟩

/-- C9: the session built by `StartClientSession` carries the identifier,
the request's declared metadata, the transport handle's observed remote
address, the supplied user, context and logger, an initially empty tunnel
collection and a nil disconnection timestamp; and the request's remote
forwards are started with the default (unrestricted, empty) ACL — on success
the returned session keeps all those fields, holds one tunnel per requested
remote, and every tunnel carries the empty ACL. -/
theorem spec_C9 (st : St) (ctx : Nat) (sid : String) (conn : Conn)
    (req : ConnectionRequest) (user : Nat) (clog : Nat) :
    mkClientSession ctx sid conn req user clog =
      { id := sid, name := req.name, tags := req.tags, os := req.os,
        hostname := req.hostname, version := req.version, ipv4 := req.ipv4,
        ipv6 := req.ipv6, address := conn.remoteAddr, tunnels := [],
        connection := some conn, context := ctx, user := user, logger := clog,
        disconnected := none } ∧
    ∀ sess, (startClientSession st ctx sid conn req user clog).1 = Except.ok sess →
      sess.id = sid ∧ sess.name = req.name ∧ sess.tags = req.tags ∧ sess.os = req.os ∧
      sess.hostname = req.hostname ∧ sess.version = req.version ∧ sess.ipv4 = req.ipv4 ∧
      sess.ipv6 = req.ipv6 ∧ sess.address = conn.remoteAddr ∧
      sess.connection = some conn ∧ sess.context = ctx ∧ sess.user = user ∧
      sess.logger = clog ∧ sess.disconnected = none ∧
      sess.tunnels.length = req.remotes.length ∧
      ∀ t ∈ sess.tunnels, t.acl = TunnelACL.mk [] := by
  refine ⟨rfl, ?_⟩
  intro sess hok
  rcases hinner : startSessionTunnels st (mkClientSession ctx sid conn req user clog)
      req.remotes (TunnelACL.mk []) with ⟨res1, rem1, sess1, st1⟩
  obtain ⟨-, -, -, -, hsans⟩ :=
    startSessionTunnels_frame st (mkClientSession ctx sid conn req user clog)
      req.remotes (TunnelACL.mk []) res1 rem1 sess1 st1 hinner
  obtain ⟨hid, hname, htags, hos, hhost, hver, hip4, hip6, haddr, hconn, hctx, huser,
    hlog, hdisc⟩ := sansFields hsans
  cases res1 with
  | error e => simp [startClientSession, hinner] at hok
  | ok ts =>
    cases hs : st1.saveResults.head?.getD none with
    | some e => simp [startClientSession, hinner, repoSaveOp, hs] at hok
    | none =>
      simp only [startClientSession, hinner, repoSaveOp, hs, Except.ok.injEq] at hok
      subst hok
      obtain ⟨hlen, hmap, htuns, -⟩ :=
        startSessionTunnels_ok_spec st (mkClientSession ctx sid conn req user clog)
          (TunnelACL.mk []) req.remotes ts rem1 sess1 st1 hinner
      refine ⟨hid, hname, htags, hos, hhost, hver, hip4, hip6, haddr, hconn, hctx,
        huser, hlog, hdisc, ?_, ?_⟩
      · rw [htuns]
        simp [hmap, hlen, mkClientSession]
      · intro t ht
        rw [htuns] at ht
        simp only [mkClientSession, List.nil_append] at ht
        rw [hmap] at ht
        obtain ⟨r, -, hr⟩ := List.mem_map.mp ht
        rw [← hr]

theorem spec_C9_witness :
    sessSuccess.id = "sid-1" ∧ sessSuccess.name = req0.name ∧
    sessSuccess.tags = req0.tags ∧ sessSuccess.os = req0.os ∧
    sessSuccess.hostname = req0.hostname ∧ sessSuccess.version = req0.version ∧
    sessSuccess.ipv4 = req0.ipv4 ∧ sessSuccess.ipv6 = req0.ipv6 ∧
    sessSuccess.address = conn0.remoteAddr ∧ sessSuccess.connection = some conn0 ∧
    sessSuccess.context = 1 ∧ sessSuccess.user = 7 ∧ sessSuccess.logger = 3 ∧
    sessSuccess.disconnected = none ∧
    sessSuccess.tunnels.length = req0.remotes.length ∧
    ∀ t ∈ sessSuccess.tunnels, t.acl = TunnelACL.mk [] :=
  (spec_C9 st0 1 "sid-1" conn0 req0 7 3).2 sessSuccess rfl

end NeoRport
